import Mathlib

/-!
# Verification of `tardigrade_constitutive_tools.cpp`

A shallow embedding of the constitutive-tools kinematics library
(`tardigradeConstitutiveTools` namespace of
`src/cpp/tardigrade_constitutive_tools.cpp`).  Tensors are modelled, as in the
source, by flat row-major lists; the Eigen matrix maps used by the source are
modelled by the `toMat`/`ofMat` conversions below.  The purely rational
operations (`rotateMatrix`, `midpointEvolution`, `evolveF`) are embedded over
`ℚ` so they stay executable; operations whose source computes square roots,
fractional powers, or real matrix inverses
(`decomposeGreenLagrangeStrain`, the push-forward/pull-back family) are
embedded over `ℝ`.
-/

namespace TardigradeConstitutiveTools

open scoped Matrix

/-- Row-major view of a flat list as a 3×3 matrix: entry `(i, j)` is element
`3*i + j` of the list (out-of-range reads give `0`), mirroring the
`Eigen::Map<... RowMajor>` views in the source. -/
def toMat {α : Type} [Zero α] (v : List α) : Matrix (Fin 3) (Fin 3) α :=
  Matrix.of fun i j => v.getD (3 * i.val + j.val) 0

/-- Row-major flattening of a 3×3 matrix back to a 9-element list. -/
def ofMat {α : Type} (M : Matrix (Fin 3) (Fin 3) α) : List α :=
  [M 0 0, M 0 1, M 0 2, M 1 0, M 1 1, M 1 2, M 2 0, M 2 1, M 2 2]

/-- Row-major view of a flat list as a `d×d` matrix (general runtime-inferred
dimension, as used by `rotateMatrix` and `pushForwardPK2Stress`). -/
def toMatN (d : ℕ) {α : Type} [Zero α] (v : List α) : Matrix (Fin d) (Fin d) α :=
  Matrix.of fun i j => v.getD (d * i.val + j.val) 0

/-- Row-major flattening of a `d×d` matrix to a flat list of length `d*d`. -/
def ofMatN {d : ℕ} {α : Type} (M : Matrix (Fin d) (Fin d) α) : List α :=
  (List.finRange d).flatMap fun i => (List.finRange d).map fun j => M i j

/-- The matrix inverse `(1/det) • adjugate`, the value Eigen's `.inverse()`
and `tardigradeVectorTools::inverse` produce on an invertible matrix. -/
def matInv {α : Type} [Field α] {n : Type} [Fintype n] [DecidableEq n]
    (M : Matrix n n α) : Matrix n n α :=
  (M.det)⁻¹ • M.adjugate

/-- `std::vector::resize` to `n` entries: existing entries are kept,
newly created entries are zero-filled. -/
def resize {α : Type} [Zero α] (v : List α) (n : ℕ) : List α :=
  v.take n ++ List.replicate (n - v.length) 0

theorem matInv_mul {α : Type} [Field α] {n : Type} [Fintype n] [DecidableEq n]
    (M : Matrix n n α) (h : M.det ≠ 0) : matInv M * M = 1 := by
  rw [matInv, Matrix.smul_mul, Matrix.adjugate_mul, smul_smul,
    inv_mul_cancel₀ h, one_smul]

theorem mul_matInv {α : Type} [Field α] {n : Type} [Fintype n] [DecidableEq n]
    (M : Matrix n n α) (h : M.det ≠ 0) : M * matInv M = 1 := by
  rw [matInv, Matrix.mul_smul, Matrix.mul_adjugate, smul_smul,
    inv_mul_cancel₀ h, one_smul]

theorem toMat_ofMat {α : Type} [Zero α] (M : Matrix (Fin 3) (Fin 3) α) :
    toMat (ofMat M) = M := by
  funext i j
  fin_cases i <;> fin_cases j <;> rfl

theorem ofMat_toMat {α : Type} [Zero α] (l : List α) (h : l.length = 9) :
    ofMat (toMat l) = l := by
  match l, h with
  | [a, b, c, d, e, f, g, hh, i], _ => rfl

theorem ofMat_length {α : Type} (M : Matrix (Fin 3) (Fin 3) α) :
    (ofMat M).length = 9 := rfl

/-!
## `rotateMatrix`

The source checks `A.size() == Q.size()`, sets `dim` to the *truncated* square
root of `A.size()`, rejects when `A.size() % dim != 0`, resizes the output
buffer to `A.size()` and then **accumulates** `Q_{Ii} A_{IJ} Q_{Jj}` onto
entry `i*dim + j` with `+=`.  The output buffer is an in/out parameter, so the
embedding takes its incoming contents and returns the final contents together
with the error status (`none` = the C++ `NULL` success return).
-/

def rotateMatrix (A Q rotatedA : List ℚ) : Option String × List ℚ :=
  if A.length ≠ Q.length then
    (some "A and Q must have the same number of values", rotatedA)
  else
    let dim := Nat.sqrt A.length
    if A.length % dim ≠ 0 then
      (some "A must be square", rotatedA)
    else
      let r := resize rotatedA A.length
      (none, (List.range A.length).map fun k =>
        r.getD k 0 +
          if k < dim * dim then
            ∑ I ∈ Finset.range dim, ∑ J ∈ Finset.range dim,
              Q.getD (I * dim + k / dim) 0 * A.getD (I * dim + J) 0 *
                Q.getD (J * dim + k % dim) 0
          else 0)

/-!
## `midpointEvolution`

The source checks the three input sizes, then the size of `alpha`, zero-fills
the output buffers `dA` and `A` to full length, and only then walks the
components: inside the loop each `alpha[i]` is range-checked (returning a
`ParameterError` immediately, with the buffers in whatever state the loop left
them) before `dA[i]` and `A[i]` are written.  The embedding again threads the
in/out output buffers explicitly.
-/

def midpointLoop (Dt : ℚ) (Ap DApDt DADt : List ℚ) (i : ℕ)
    (dA A : List ℚ) : List ℚ → Option String × List ℚ × List ℚ
  | [] => (none, dA, A)
  | ai :: rest =>
    if 0 ≤ ai ∧ ai ≤ 1 then
      let dAi := Dt * (ai * DApDt.getD i 0 + (1 - ai) * DADt.getD i 0)
      midpointLoop Dt Ap DApDt DADt (i + 1)
        (dA.set i dAi) (A.set i (Ap.getD i 0 + dAi)) rest
    else
      (some "Alpha must be between 0 and 1", dA, A)

def midpointEvolution (Dt : ℚ) (Ap DApDt DADt alpha : List ℚ)
    (dA A : List ℚ) : Option String × List ℚ × List ℚ :=
  if ¬(Ap.length = DApDt.length ∧ Ap.length = DADt.length) then
    (some "The size of the previous value of the vector and the two rates are not equal", dA, A)
  else if Ap.length ≠ alpha.length then
    (some "The size of the alpha vector is not the same size as the previous vector value", dA, A)
  else
    midpointLoop Dt Ap DApDt DADt 0
      (List.replicate Ap.length 0) (List.replicate Ap.length 0) alpha

theorem getD_set_self {α : Type} (l : List α) (i : ℕ) (a d : α)
    (h : i < l.length) : (l.set i a).getD i d = a := by
  rw [List.getD_eq_getElem?_getD, List.getElem?_set_eq_of_lt a h, Option.getD_some]

theorem getD_set_ne {α : Type} (l : List α) {i j : ℕ} (hne : i ≠ j) (a d : α) :
    (l.set i a).getD j d = l.getD j d := by
  rw [List.getD_eq_getElem?_getD, List.getElem?_set_ne hne,
    ← List.getD_eq_getElem?_getD]

/-- Invariant of the `midpointEvolution` component loop: when every remaining
`alpha` component lies in `[0,1]` the loop succeeds, leaves the first `i`
entries of the output buffers untouched, and writes the midpoint update into
every later entry. -/
theorem midpointLoop_ok (Dt : ℚ) (Ap DApDt DADt : List ℚ) :
    ∀ (alpha : List ℚ) (i : ℕ) (dA A : List ℚ),
      dA.length = i + alpha.length → A.length = i + alpha.length →
      (∀ j, j < alpha.length → 0 ≤ alpha.getD j 0 ∧ alpha.getD j 0 ≤ 1) →
      ∃ dA' A', midpointLoop Dt Ap DApDt DADt i dA A alpha = (none, dA', A') ∧
        dA'.length = dA.length ∧ A'.length = A.length ∧
        (∀ j, j < i → dA'.getD j 0 = dA.getD j 0 ∧ A'.getD j 0 = A.getD j 0) ∧
        (∀ j, j < alpha.length →
          dA'.getD (i + j) 0 =
            Dt * (alpha.getD j 0 * DApDt.getD (i + j) 0 +
              (1 - alpha.getD j 0) * DADt.getD (i + j) 0) ∧
          A'.getD (i + j) 0 = Ap.getD (i + j) 0 + dA'.getD (i + j) 0) := by
  intro alpha
  induction alpha with
  | nil =>
    intro i dA A hdA hA _
    exact ⟨dA, A, rfl, rfl, rfl, fun j _ => ⟨rfl, rfl⟩, fun j hj => by simp at hj⟩
  | cons ai rest ih =>
    intro i dA A hdA hA hrange
    simp only [List.length_cons] at hdA hA
    have hai : 0 ≤ ai ∧ ai ≤ 1 := by simpa using hrange 0 (by simp)
    have hiltdA : i < dA.length := by omega
    have hiltA : i < A.length := by omega
    rw [midpointLoop, if_pos hai]
    obtain ⟨dA', A', heq, hlen1, hlen2, hpre, hpost⟩ :=
      ih (i + 1)
        (dA.set i (Dt * (ai * DApDt.getD i 0 + (1 - ai) * DADt.getD i 0)))
        (A.set i (Ap.getD i 0 + Dt * (ai * DApDt.getD i 0 + (1 - ai) * DADt.getD i 0)))
        (by rw [List.length_set]; omega) (by rw [List.length_set]; omega)
        (fun j hj => by
          simpa only [List.getD_cons_succ] using
            hrange (j + 1) (by simp only [List.length_cons]; omega))
    rw [List.length_set] at hlen1
    rw [List.length_set] at hlen2
    refine ⟨dA', A', heq, hlen1, hlen2, ?_, ?_⟩
    · intro j hj
      have h1 := hpre j (by omega)
      rw [getD_set_ne _ (by omega), getD_set_ne _ (by omega)] at h1
      exact h1
    · intro j hj
      cases j with
      | zero =>
        have h0 := hpre i (by omega)
        rw [getD_set_self _ _ _ _ hiltdA, getD_set_self _ _ _ _ hiltA] at h0
        simp only [Nat.add_zero, List.getD_cons_zero]
        exact ⟨h0.1, by rw [h0.2, h0.1]⟩
      | succ j' =>
        have h1 := hpost j' (by simp only [List.length_cons] at hj; omega)
        have harith : i + 1 + j' = i + (j' + 1) := by omega
        rw [harith] at h1
        simp only [List.getD_cons_succ]
        exact h1

/-- C2: with equal-length inputs and every alpha component in `[0,1]`,
`midpointEvolution` succeeds and each output component satisfies
`dA_i = Dt*(alpha_i*DApDt_i + (1-alpha_i)*DADt_i)` and `A_i = Ap_i + dA_i`
(the alpha = 0 / 1 / 0.5 special cases of the claim are instances, and the
claim's concrete scenario is checked in the witness). -/
theorem midpointEvolution_ok (Dt : ℚ) (Ap DApDt DADt alpha dA0 A0 : List ℚ)
    (h1 : Ap.length = DApDt.length) (h2 : Ap.length = DADt.length)
    (h3 : Ap.length = alpha.length)
    (hrange : ∀ j, j < alpha.length → 0 ≤ alpha.getD j 0 ∧ alpha.getD j 0 ≤ 1) :
    ∃ dA A, midpointEvolution Dt Ap DApDt DADt alpha dA0 A0 = (none, dA, A) ∧
      dA.length = Ap.length ∧ A.length = Ap.length ∧
      ∀ j, j < Ap.length →
        dA.getD j 0 =
          Dt * (alpha.getD j 0 * DApDt.getD j 0 +
            (1 - alpha.getD j 0) * DADt.getD j 0) ∧
        A.getD j 0 = Ap.getD j 0 + dA.getD j 0 := by
  obtain ⟨dA, A, heq, hlen1, hlen2, _, hpost⟩ :=
    midpointLoop_ok Dt Ap DApDt DADt alpha 0
      (List.replicate Ap.length 0) (List.replicate Ap.length 0)
      (by simp [h3]) (by simp [h3]) hrange
  refine ⟨dA, A, ?_, by simpa using hlen1, by simpa using hlen2, ?_⟩
  · rw [midpointEvolution, if_neg (by simp only [not_not]; exact ⟨h1, h2⟩),
      if_neg (by simp only [ne_eq, not_not]; exact h3), heq]
  · intro j hj
    have := hpost j (by omega)
    rwa [Nat.zero_add] at this

/-!
## `evolveF`

Generalized-midpoint evolution of the deformation gradient.  The source checks
that all three tensor inputs have nine components and that `mode` is `1` or
`2`, forms `L* = alpha*Lp + (1-alpha)*L`, the right-hand side
`Dt * (L* · Fp)` (mode 1) or `Dt * (Fp · L*)` (mode 2), inverts
`I - Dt*(1-alpha)*L` with Eigen, multiplies on the matching side to obtain
`dF`, and returns `F = Fp + dF`.
-/

def evolveF (Dt : ℚ) (previousDeformationGradient Lp L : List ℚ) (alpha : ℚ)
    (mode : ℕ) : Except String (List ℚ × List ℚ) :=
  if previousDeformationGradient.length ≠ 9 then
    .error "The deformation gradient doesn't have enough terms (require 9 for 3D)"
  else if Lp.length ≠ previousDeformationGradient.length then
    .error "The previous velocity gradient and deformation gradient aren't the same size"
  else if previousDeformationGradient.length ≠ L.length then
    .error "The previous deformation gradient and the current velocity gradient aren't the same size"
  else if ¬(mode = 1 ∨ mode = 2) then
    .error "The mode of evolution is not recognized"
  else
    let Fp := toMat previousDeformationGradient
    let LtpAlpha := alpha • toMat Lp + (1 - alpha) • toMat L
    let RHS := Dt • (if mode = 1 then LtpAlpha * Fp else Fp * LtpAlpha)
    let invLHS := matInv (1 - (Dt * (1 - alpha)) • toMat L)
    let dF := if mode = 1 then invLHS * RHS else RHS * invLHS
    .ok (ofMat dF, ofMat (Fp + dF))

/-!
## Strain measures and configuration maps (real-valued)

These operations divide by determinants and take square roots / fractional
powers, so they are embedded over `ℝ` (the source computes in `double`; the
claims about them are stated "exact in real arithmetic").
-/

/-- `computeGreenLagrangeStrain`: `E_{IJ} = 0.5 (F_{iI} F_{iJ} - δ_{IJ})`,
after checking the deformation gradient has nine components. -/
def computeGreenLagrangeStrain (deformationGradient : List ℝ) :
    Except String (List ℝ) :=
  if deformationGradient.length ≠ 9 then
    .error "The deformation gradient must be 3D."
  else
    .ok (ofMat (Matrix.of fun I J =>
      0.5 * ((∑ i : Fin 3, deformationGradient.getD (3 * i.val + I.val) 0 *
        deformationGradient.getD (3 * i.val + J.val) 0) -
        if I = J then 1 else 0)))

/-- `decomposeGreenLagrangeStrain`: forms `F_squared = 2E + I`, takes its
determinant `Jsq`, rejects with a `DomainError` unless `Jsq > 0`, and
otherwise returns `J = sqrt(Jsq)` together with the isochoric strain
`Ebar = E / J^(2/3)` with `0.5*(1/J^(2/3) - 1)` added on the diagonal. -/
noncomputable def decomposeGreenLagrangeStrain (E : List ℝ) :
    Except String (List ℝ × ℝ) :=
  if E.length ≠ 9 then
    .error "the Green-Lagrange strain must be 3D"
  else
    let Jsq := ((2 : ℝ) • toMat E + 1).det
    if 0 < Jsq then
      let J := Real.sqrt Jsq
      .ok (ofMat ((J ^ ((2 : ℝ) / 3))⁻¹ • toMat E +
        (0.5 * ((J ^ ((2 : ℝ) / 3))⁻¹ - 1)) • 1), J)
    else
      .error "the determinant of the Green-Lagrange strain is negative"

/-- `pushForwardGreenLagrangeStrain`: `e = F⁻ᵀ · E · F⁻¹` (the source inverts
`F` with `tardigradeVectorTools::inverse`, multiplies `E · F⁻¹`, then
left-multiplies by `F⁻ᵀ`; it assumes 3D without a shape check). -/
noncomputable def pushForwardGreenLagrangeStrain
    (greenLagrangeStrain deformationGradient : List ℝ) : List ℝ :=
  let iF := matInv (toMat deformationGradient)
  ofMat (iFᵀ * (toMat greenLagrangeStrain * iF))

/-- `pullBackAlmansiStrain`: `E = Fᵀ · e · F` (the source multiplies
`Fᵀ · e`, then right-multiplies by `F`; it assumes 3D without a shape
check). -/
def pullBackAlmansiStrain (almansiStrain deformationGradient : List ℝ) :
    List ℝ :=
  ofMat ((toMat deformationGradient)ᵀ * toMat almansiStrain *
    toMat deformationGradient)

/-- `mapPK2toCauchy`: checks that the PK2 stress has nine components and the
deformation gradient the same size, then computes
`σ = (1/det F) · F · S · Fᵀ` (the source forms `F·S`, divides by `det F`,
then right-multiplies by `Fᵀ`). -/
noncomputable def mapPK2toCauchy (PK2Stress deformationGradient : List ℝ) :
    Except String (List ℝ) :=
  if PK2Stress.length ≠ 9 then
    .error "The cauchy stress must have nine components (3D)"
  else if deformationGradient.length ≠ PK2Stress.length then
    .error "The deformation gradient and the PK2 stress don't have the same size"
  else
    let F := toMat deformationGradient
    .ok (ofMat ((F.det)⁻¹ • (F * toMat PK2Stress) * Fᵀ))

/-- The dimension inference `(unsigned int)(std::sqrt((double)n) + 0.5)` of
`pushForwardPK2Stress`: the square root of `n` rounded to the nearest
integer. -/
def roundSqrt (n : ℕ) : ℕ :=
  let s := Nat.sqrt n
  if s * s + s < n then s + 1 else s

/-- `pushForwardPK2Stress`: infers `dim` as the rounded square root of the
PK2 size, rejects when `dim*dim` is not that size or the deformation gradient
size differs, then computes `σ = (1/det F) · F · S · Fᵀ` at dimension `dim`
(the source multiplies `F·S`, then `(F·S)·Fᵀ`, then divides by `J = det F`). -/
noncomputable def pushForwardPK2Stress (PK2 F : List ℝ) :
    Except String (List ℝ) :=
  let dim := roundSqrt PK2.length
  if dim * dim ≠ PK2.length then
    .error "The PK2 stress must have a size of dim*dim"
  else if PK2.length ≠ F.length then
    .error "The deformation gradient must have the size of the PK2 stress"
  else
    let Fm := toMatN dim F
    .ok (ofMatN (((Fm.det)⁻¹ • (Fm * toMatN dim PK2 * Fmᵀ))))

theorem getD_replicate_zero (n j : ℕ) : (List.replicate n (0 : ℚ)).getD j 0 = 0 := by
  rw [List.getD_eq_getElem?_getD, List.getElem?_replicate]
  split <;> rfl

theorem getD_map_range (f : ℕ → ℚ) {n k : ℕ} (h : k < n) (d : ℚ) :
    ((List.range n).map f).getD k d = f k := by
  rw [List.getD_eq_getElem?_getD, List.getElem?_map, List.getElem?_range h,
    Option.map_some', Option.getD_some]

/-- The error-path invariant of the `midpointEvolution` component loop: when
component `k` of `alpha` is the first out of `[0,1]`, the loop stops there
with a `ParameterError`, having already written components `0 .. k-1` of the
output buffers and left the rest untouched. -/
theorem midpointLoop_err (Dt : ℚ) (Ap DApDt DADt : List ℚ) :
    ∀ (alpha : List ℚ) (i : ℕ) (dA A : List ℚ) (k : ℕ),
      dA.length = i + alpha.length → A.length = i + alpha.length →
      k < alpha.length → ¬(0 ≤ alpha.getD k 0 ∧ alpha.getD k 0 ≤ 1) →
      (∀ j, j < k → 0 ≤ alpha.getD j 0 ∧ alpha.getD j 0 ≤ 1) →
      ∃ dA' A', midpointLoop Dt Ap DApDt DADt i dA A alpha =
          (some "Alpha must be between 0 and 1", dA', A') ∧
        dA'.length = dA.length ∧ A'.length = A.length ∧
        (∀ j, j < i → dA'.getD j 0 = dA.getD j 0 ∧ A'.getD j 0 = A.getD j 0) ∧
        (∀ j, j < k →
          dA'.getD (i + j) 0 =
            Dt * (alpha.getD j 0 * DApDt.getD (i + j) 0 +
              (1 - alpha.getD j 0) * DADt.getD (i + j) 0) ∧
          A'.getD (i + j) 0 = Ap.getD (i + j) 0 + dA'.getD (i + j) 0) ∧
        (∀ j, k ≤ j → j < alpha.length →
          dA'.getD (i + j) 0 = dA.getD (i + j) 0 ∧
          A'.getD (i + j) 0 = A.getD (i + j) 0) := by
  intro alpha
  induction alpha with
  | nil =>
    intro i dA A k _ _ hk _ _
    exact absurd hk (by simp)
  | cons ai rest ih =>
    intro i dA A k hdA hA hk hkbad hgood
    simp only [List.length_cons] at hdA hA hk
    cases k with
    | zero =>
      rw [midpointLoop, if_neg (by simpa using hkbad)]
      exact ⟨dA, A, rfl, rfl, rfl, fun j _ => ⟨rfl, rfl⟩,
        fun j hj => by omega, fun j _ _ => ⟨rfl, rfl⟩⟩
    | succ k' =>
      have hai : 0 ≤ ai ∧ ai ≤ 1 := by simpa using hgood 0 (by omega)
      have hiltdA : i < dA.length := by omega
      have hiltA : i < A.length := by omega
      rw [midpointLoop, if_pos hai]
      obtain ⟨dA', A', heq, hlen1, hlen2, hpre, hset, hrest⟩ :=
        ih (i + 1)
          (dA.set i (Dt * (ai * DApDt.getD i 0 + (1 - ai) * DADt.getD i 0)))
          (A.set i (Ap.getD i 0 + Dt * (ai * DApDt.getD i 0 + (1 - ai) * DADt.getD i 0)))
          k'
          (by rw [List.length_set]; omega) (by rw [List.length_set]; omega)
          (by omega) (by simpa only [List.getD_cons_succ] using hkbad)
          (fun j hj => by
            simpa only [List.getD_cons_succ] using hgood (j + 1) (by omega))
      rw [List.length_set] at hlen1
      rw [List.length_set] at hlen2
      refine ⟨dA', A', heq, hlen1, hlen2, ?_, ?_, ?_⟩
      · intro j hj
        have h1 := hpre j (by omega)
        rw [getD_set_ne _ (by omega), getD_set_ne _ (by omega)] at h1
        exact h1
      · intro j hj
        cases j with
        | zero =>
          have h0 := hpre i (by omega)
          rw [getD_set_self _ _ _ _ hiltdA, getD_set_self _ _ _ _ hiltA] at h0
          simp only [Nat.add_zero, List.getD_cons_zero]
          exact ⟨h0.1, by rw [h0.2, h0.1]⟩
        | succ j' =>
          have h1 := hset j' (by omega)
          have harith : i + 1 + j' = i + (j' + 1) := by omega
          rw [harith] at h1
          simp only [List.getD_cons_succ]
          exact h1
      · intro j hkj hj
        simp only [List.length_cons] at hj
        cases j with
        | zero => omega
        | succ j' =>
          have h1 := hrest j' (by omega) (by omega)
          have harith : i + 1 + j' = i + (j' + 1) := by omega
          rw [harith] at h1
          rw [getD_set_ne _ (by omega), getD_set_ne _ (by omega)] at h1
          exact h1

/-- Witness for C2 at the claim's concrete scenario
`Dt = 2.5, Ap = [9,10,11,12], DApDt = [1,2,3,4], DADt = [5,6,7,8],
alpha = [0.1,0.2,0.3,0.4]`, which yields `A = [20.5, 23.0, 25.5, 28.0]`. -/
theorem midpointEvolution_ok_witness :
    midpointEvolution (5/2) [9, 10, 11, 12] [1, 2, 3, 4] [5, 6, 7, 8]
        [1/10, 2/10, 3/10, 4/10] [] [] =
      (none, [23/2, 13, 29/2, 16], [41/2, 23, 51/2, 28]) ∧
    (∃ dA A, midpointEvolution (5/2) [9, 10, 11, 12] [1, 2, 3, 4] [5, 6, 7, 8]
        [1/10, 2/10, 3/10, 4/10] [] [] = (none, dA, A) ∧
      dA.length = 4 ∧ A.length = 4 ∧
      ∀ j, j < 4 →
        dA.getD j 0 =
          (5/2 : ℚ) * (([1/10, 2/10, 3/10, 4/10] : List ℚ).getD j 0 *
              ([1, 2, 3, 4] : List ℚ).getD j 0 +
            (1 - ([1/10, 2/10, 3/10, 4/10] : List ℚ).getD j 0) *
              ([5, 6, 7, 8] : List ℚ).getD j 0) ∧
        A.getD j 0 = ([9, 10, 11, 12] : List ℚ).getD j 0 + dA.getD j 0) :=
  ⟨by norm_num [midpointEvolution, midpointLoop, List.replicate, List.set],
   midpointEvolution_ok (5/2) [9, 10, 11, 12] [1, 2, 3, 4] [5, 6, 7, 8]
     [1/10, 2/10, 3/10, 4/10] [] [] rfl rfl rfl
     (by
      intro j hj
      simp only [List.length_cons, List.length_nil] at hj
      interval_cases j <;> norm_num)⟩

/-- C3 counterexample: `midpointEvolution` on `alpha = [0, 2]` (second
component out of `[0,1]`) returns the alpha `ParameterError`, yet the output
buffers are not in their pristine zero-initialized state: component 0 of both
`dA` and `A` was already populated before the failing range check ran, so the
call does *not* return "without partially populating the outputs". -/
theorem midpointEvolution_partialWrite_cex :
    midpointEvolution 1 [1, 1] [1, 1] [1, 1] [0, 2] [] [] =
      (some "Alpha must be between 0 and 1", [1, 0], [2, 0]) ∧
    ([1, 0] : List ℚ) ≠ List.replicate 2 0 := by
  constructor
  · norm_num [midpointEvolution, midpointLoop, List.replicate, List.set]
  · norm_num [List.replicate]

/-- C3 (amended): the size preconditions of `midpointEvolution` are checked
eagerly before the outputs are touched, but the `alpha` range check runs per
component inside the update loop: when component `k` is the first one outside
`[0,1]`, the call returns the `ParameterError` with `dA` and `A`
zero-initialized to full length, components `0..k-1` already populated with
the midpoint update, and components from `k` on still zero. -/
theorem midpointEvolution_alphaErrorPartial (Dt : ℚ)
    (Ap DApDt DADt alpha dA0 A0 : List ℚ) (k : ℕ)
    (h1 : Ap.length = DApDt.length) (h2 : Ap.length = DADt.length)
    (h3 : Ap.length = alpha.length)
    (hk : k < alpha.length)
    (hkbad : ¬(0 ≤ alpha.getD k 0 ∧ alpha.getD k 0 ≤ 1))
    (hgood : ∀ j, j < k → 0 ≤ alpha.getD j 0 ∧ alpha.getD j 0 ≤ 1) :
    ∃ dA A, midpointEvolution Dt Ap DApDt DADt alpha dA0 A0 =
        (some "Alpha must be between 0 and 1", dA, A) ∧
      dA.length = Ap.length ∧ A.length = Ap.length ∧
      (∀ j, j < k →
        dA.getD j 0 =
          Dt * (alpha.getD j 0 * DApDt.getD j 0 +
            (1 - alpha.getD j 0) * DADt.getD j 0) ∧
        A.getD j 0 = Ap.getD j 0 + dA.getD j 0) ∧
      (∀ j, k ≤ j → j < Ap.length → dA.getD j 0 = 0 ∧ A.getD j 0 = 0) := by
  obtain ⟨dA, A, heq, hlen1, hlen2, _, hset, hrest⟩ :=
    midpointLoop_err Dt Ap DApDt DADt alpha 0
      (List.replicate Ap.length 0) (List.replicate Ap.length 0) k
      (by simp [h3]) (by simp [h3]) hk hkbad hgood
  refine ⟨dA, A, ?_, by simpa using hlen1, by simpa using hlen2, ?_, ?_⟩
  · rw [midpointEvolution, if_neg (by simp only [not_not]; exact ⟨h1, h2⟩),
      if_neg (by simp only [ne_eq, not_not]; exact h3), heq]
  · intro j hj
    have := hset j hj
    rwa [Nat.zero_add] at this
  · intro j hkj hj
    have := hrest j hkj (by omega)
    rw [Nat.zero_add] at this
    rwa [getD_replicate_zero] at this

/-- Witness for the amended C3 at `Dt = 1`, `Ap = DApDt = DADt = [1, 1]`,
`alpha = [0, 2]`: component 1 of alpha is out of range, so the call fails
with component 0 of the outputs populated and component 1 zero. -/
theorem midpointEvolution_alphaErrorPartial_witness :
    (¬((0 : ℚ) ≤ ([0, 2] : List ℚ).getD 1 0 ∧ ([0, 2] : List ℚ).getD 1 0 ≤ 1)) ∧
    (∃ dA A, midpointEvolution 1 [1, 1] [1, 1] [1, 1] [0, 2] [] [] =
        (some "Alpha must be between 0 and 1", dA, A) ∧
      dA.length = 2 ∧ A.length = 2 ∧
      (∀ j, j < 1 →
        dA.getD j 0 =
          (1 : ℚ) * (([0, 2] : List ℚ).getD j 0 * ([1, 1] : List ℚ).getD j 0 +
            (1 - ([0, 2] : List ℚ).getD j 0) * ([1, 1] : List ℚ).getD j 0) ∧
        A.getD j 0 = ([1, 1] : List ℚ).getD j 0 + dA.getD j 0) ∧
      (∀ j, 1 ≤ j → j < 2 → dA.getD j 0 = 0 ∧ A.getD j 0 = 0)) :=
  ⟨by norm_num,
   midpointEvolution_alphaErrorPartial 1 [1, 1] [1, 1] [1, 1] [0, 2] [] [] 1
     rfl rfl rfl (by norm_num) (by norm_num)
     (by intro j hj; interval_cases j; norm_num)⟩

theorem resize_of_length_eq {α : Type} [Zero α] (v : List α) (n : ℕ)
    (h : v.length = n) : resize v n = v := by
  subst h
  simp [resize, List.take_length]

/-- C9: the `rotateMatrix` squareness check `A.size() % dim != 0` with
`dim = ⌊√|A|⌋` does not enforce a perfect-square length: a pair of length-6
inputs passes both checks (`6 % 2 = 0`) and the call succeeds, although 6 is
not a perfect square and the function's own error message demands "A must be
square". -/
theorem rotateMatrix_acceptsNonsquare :
    (rotateMatrix [1, 2, 3, 4, 5, 6] [1, 2, 3, 4, 5, 6] []).1 = none ∧
    ∀ d : ℕ, d * d ≠ 6 := by
  constructor
  · have h6 : Nat.sqrt 6 = 2 := (Nat.eq_sqrt.mpr (by norm_num)).symm
    norm_num [rotateMatrix, h6]
  · intro d
    rcases Nat.lt_or_ge d 3 with h | h
    · interval_cases d <;> omega
    · nlinarith

/-- C10: for a well-shaped input (`|A| = |Q| = d*d`) and a pre-populated
output buffer of length `|A|`, `rotateMatrix` succeeds and *accumulates*: the
returned entry `(i,j)` equals the prior buffer contents plus
`(Qᵀ A Q)_{ij}`. -/
theorem rotateMatrix_accumulates (A Q P : List ℚ) (d : ℕ)
    (hA : A.length = d * d) (hQ : Q.length = A.length) (hP : P.length = A.length) :
    ∃ R, rotateMatrix A Q P = (none, R) ∧ R.length = A.length ∧
      ∀ i j : Fin d, R.getD (i.val * d + j.val) 0 =
        P.getD (i.val * d + j.val) 0 +
          ((toMatN d Q)ᵀ * toMatN d A * toMatN d Q) i j := by
  have hdim : Nat.sqrt A.length = d := by rw [hA, Nat.sqrt_eq]
  have hres : rotateMatrix A Q P =
      (none, (List.range A.length).map fun k =>
        (resize P A.length).getD k 0 +
          if k < Nat.sqrt A.length * Nat.sqrt A.length then
            ∑ I ∈ Finset.range (Nat.sqrt A.length),
              ∑ J ∈ Finset.range (Nat.sqrt A.length),
                Q.getD (I * Nat.sqrt A.length + k / Nat.sqrt A.length) 0 *
                  A.getD (I * Nat.sqrt A.length + J) 0 *
                  Q.getD (J * Nat.sqrt A.length + k % Nat.sqrt A.length) 0
          else 0) := by
    rw [rotateMatrix, if_neg (by rw [hQ]; exact not_not_intro rfl),
      if_neg (by rw [hdim, hA]; exact not_not_intro (Nat.mul_mod_left d d))]
  refine ⟨_, hres, by simp, ?_⟩
  intro i j
  have hk : i.val * d + j.val < A.length := by
    rw [hA]
    calc i.val * d + j.val < i.val * d + d := by omega
    _ = (i.val + 1) * d := by ring
    _ ≤ d * d := by
        have := i.isLt
        exact Nat.mul_le_mul_right d (by omega)
  rw [getD_map_range _ hk, resize_of_length_eq P A.length hP, hdim,
    if_pos (by rw [← hA]; exact hk)]
  have hdiv : (i.val * d + j.val) / d = i.val := by
    rcases Nat.eq_zero_or_pos d with hd | hd
    · exact absurd i.isLt (by omega)
    · rw [Nat.mul_comm, Nat.add_comm, Nat.add_mul_div_left _ _ hd,
        Nat.div_eq_of_lt j.isLt, Nat.zero_add]
  have hmod : (i.val * d + j.val) % d = j.val := by
    rw [Nat.mul_comm, Nat.add_comm, Nat.add_mul_mod_self_left,
      Nat.mod_eq_of_lt j.isLt]
  rw [hdiv, hmod]
  congr 1
  rw [Matrix.mul_apply]
  simp only [Matrix.mul_apply, Matrix.transpose_apply, toMatN, Matrix.of_apply,
    Finset.sum_mul]
  simp_rw [Finset.sum_range]
  conv_rhs => rw [Finset.sum_comm]
  refine Finset.sum_congr rfl fun I hI => Finset.sum_congr rfl fun J hJ => ?_
  rw [Nat.mul_comm d I.val, Nat.mul_comm d J.val]

/-- Witness for C10 at `d = 2`, `A = [1,2,3,4]`, `Q = [0,1,1,0]` (a
permutation), prior buffer `P = [10,20,30,40]`: the result is
`P + Qᵀ·A·Q = [14,23,32,41]`. -/
theorem rotateMatrix_accumulates_witness :
    rotateMatrix [1, 2, 3, 4] [0, 1, 1, 0] [10, 20, 30, 40] =
      (none, [14, 23, 32, 41]) ∧
    (∃ R, rotateMatrix [1, 2, 3, 4] [0, 1, 1, 0] [10, 20, 30, 40] = (none, R) ∧
      R.length = ([1, 2, 3, 4] : List ℚ).length ∧
      ∀ i j : Fin 2, R.getD (i.val * 2 + j.val) 0 =
        ([10, 20, 30, 40] : List ℚ).getD (i.val * 2 + j.val) 0 +
          ((toMatN 2 ([0, 1, 1, 0] : List ℚ))ᵀ * toMatN 2 ([1, 2, 3, 4] : List ℚ) *
            toMatN 2 ([0, 1, 1, 0] : List ℚ)) i j) :=
  ⟨by
    have h4 : Nat.sqrt 4 = 2 := (Nat.eq_sqrt.mpr (by norm_num)).symm
    norm_num [rotateMatrix, h4, resize, List.range_succ, Finset.sum_range_succ],
   rotateMatrix_accumulates [1, 2, 3, 4] [0, 1, 1, 0] [10, 20, 30, 40] 2
     rfl rfl rfl⟩

/-- C7: for every length-9 deformation gradient, `computeGreenLagrangeStrain`
succeeds and returns `E` with `E_{IJ} = (1/2)(Σ_i F_{iI} F_{iJ} - δ_{IJ})`,
i.e. `E = (1/2)(Fᵀ F - 1)` as a matrix identity. -/
theorem computeGreenLagrangeStrain_ok (F : List ℝ) (h : F.length = 9) :
    ∃ E, computeGreenLagrangeStrain F = .ok E ∧ E.length = 9 ∧
      toMat E = (1/2 : ℝ) • ((toMat F)ᵀ * toMat F - 1) ∧
      ∀ I J : Fin 3, E.getD (3 * I.val + J.val) 0 =
        (1/2 : ℝ) * ((∑ i : Fin 3, F.getD (3 * i.val + I.val) 0 *
          F.getD (3 * i.val + J.val) 0) - if I = J then 1 else 0) := by
  refine ⟨ofMat (Matrix.of fun I J =>
      (0.5 : ℝ) * ((∑ i : Fin 3, F.getD (3 * i.val + I.val) 0 *
        F.getD (3 * i.val + J.val) 0) - if I = J then 1 else 0)),
    ?_, ofMat_length _, ?_, ?_⟩
  · rw [computeGreenLagrangeStrain, if_neg (by rw [h]; exact not_not_intro rfl)]
  · rw [toMat_ofMat]
    funext I J
    simp only [Matrix.of_apply, Matrix.smul_apply, Matrix.sub_apply,
      Matrix.mul_apply, Matrix.transpose_apply, Matrix.one_apply, toMat,
      smul_eq_mul]
    norm_num
  · intro I J
    have hE : (ofMat (Matrix.of fun I J =>
        (0.5 : ℝ) * ((∑ i : Fin 3, F.getD (3 * i.val + I.val) 0 *
          F.getD (3 * i.val + J.val) 0) - if I = J then 1 else 0))).getD
          (3 * I.val + J.val) 0 =
        toMat (ofMat (Matrix.of fun I J =>
          (0.5 : ℝ) * ((∑ i : Fin 3, F.getD (3 * i.val + I.val) 0 *
            F.getD (3 * i.val + J.val) 0) - if I = J then 1 else 0))) I J := rfl
    rw [hE, toMat_ofMat, Matrix.of_apply]
    norm_num

/-- Witness for C7 at `F = I₃ₓ₃ = [1,0,0,0,1,0,0,0,1]`, for which the claim's
concrete scenario requires `E = [0]*9`. -/
theorem computeGreenLagrangeStrain_ok_witness :
    computeGreenLagrangeStrain [1, 0, 0, 0, 1, 0, 0, 0, 1] =
      .ok [0, 0, 0, 0, 0, 0, 0, 0, 0] ∧
    (∃ E, computeGreenLagrangeStrain [1, 0, 0, 0, 1, 0, 0, 0, 1] = .ok E ∧
      E.length = 9 ∧
      toMat E = (1/2 : ℝ) •
        ((toMat ([1, 0, 0, 0, 1, 0, 0, 0, 1] : List ℝ))ᵀ *
          toMat ([1, 0, 0, 0, 1, 0, 0, 0, 1] : List ℝ) - 1) ∧
      ∀ I J : Fin 3, E.getD (3 * I.val + J.val) 0 =
        (1/2 : ℝ) * ((∑ i : Fin 3,
            ([1, 0, 0, 0, 1, 0, 0, 0, 1] : List ℝ).getD (3 * i.val + I.val) 0 *
            ([1, 0, 0, 0, 1, 0, 0, 0, 1] : List ℝ).getD (3 * i.val + J.val) 0) -
          if I = J then 1 else 0)) :=
  ⟨by
    rw [computeGreenLagrangeStrain, if_neg (by norm_num)]
    norm_num [ofMat, Fin.sum_univ_three]
    decide,
   computeGreenLagrangeStrain_ok [1, 0, 0, 0, 1, 0, 0, 0, 1] rfl⟩

/-- C6: for a length-9 strain and an invertible deformation gradient, pulling
the pushed-forward Almansi strain back recovers the Green-Lagrange strain
exactly: `pullBackAlmansiStrain (pushForwardGreenLagrangeStrain E F) F = E`. -/
theorem pullBack_pushForward_roundTrip (E F : List ℝ) (hE : E.length = 9)
    (hF : (toMat F).det ≠ 0) :
    pullBackAlmansiStrain (pushForwardGreenLagrangeStrain E F) F = E := by
  rw [pullBackAlmansiStrain, pushForwardGreenLagrangeStrain, toMat_ofMat]
  have hinv : matInv (toMat F) * toMat F = 1 := matInv_mul _ hF
  have ht : (toMat F)ᵀ * (matInv (toMat F))ᵀ = 1 := by
    rw [← Matrix.transpose_mul, hinv, Matrix.transpose_one]
  have hm : (toMat F)ᵀ * ((matInv (toMat F))ᵀ *
      (toMat E * matInv (toMat F))) * toMat F = toMat E := by
    rw [← Matrix.mul_assoc ((toMat F)ᵀ) ((matInv (toMat F))ᵀ), ht,
      Matrix.one_mul, Matrix.mul_assoc, hinv, Matrix.mul_one]
  rw [hm, ofMat_toMat E hE]

/-- Witness for C6 at `E = [1,2,3,4,5,6,7,8,9]`, `F = I₃ₓ₃` (determinant 1,
invertible). -/
theorem pullBack_pushForward_roundTrip_witness :
    (toMat ([1, 0, 0, 0, 1, 0, 0, 0, 1] : List ℝ)).det ≠ 0 ∧
    pullBackAlmansiStrain
      (pushForwardGreenLagrangeStrain [1, 2, 3, 4, 5, 6, 7, 8, 9]
        [1, 0, 0, 0, 1, 0, 0, 0, 1])
      [1, 0, 0, 0, 1, 0, 0, 0, 1] = [1, 2, 3, 4, 5, 6, 7, 8, 9] := by
  have hdet : (toMat ([1, 0, 0, 0, 1, 0, 0, 0, 1] : List ℝ)).det ≠ 0 := by
    norm_num [Matrix.det_fin_three, toMat, Matrix.of_apply]
  exact ⟨hdet, pullBack_pushForward_roundTrip [1, 2, 3, 4, 5, 6, 7, 8, 9]
    [1, 0, 0, 0, 1, 0, 0, 0, 1] rfl hdet⟩

theorem roundSqrt_mul_self_iff (n : ℕ) :
    roundSqrt n * roundSqrt n = n ↔ ∃ d, d * d = n := by
  constructor
  · intro h
    exact ⟨roundSqrt n, h⟩
  · rintro ⟨d, rfl⟩
    have hs : Nat.sqrt (d * d) = d := Nat.sqrt_eq d
    have hlt : ¬(d * d + d < d * d) := Nat.not_lt.mpr (Nat.le_add_right _ _)
    simp only [roundSqrt, hs, if_neg hlt]

/-- C8 counterexample: `pushForwardPK2Stress` on the length-4 pair
`S = F = [1,0,0,1]` (the 2×2 identity) succeeds, because the function only
requires a perfect-square size (`dim` is inferred as `round(sqrt(|S|)) = 2`),
so the claim that both push-forward operations fail whenever an input is not
of length 9 is false. -/
theorem pushForwardPK2Stress_len4_cex :
    (∃ v, pushForwardPK2Stress [1, 0, 0, 1] [1, 0, 0, 1] = .ok v) ∧
    ([1, 0, 0, 1] : List ℝ).length ≠ 9 := by
  constructor
  · rw [pushForwardPK2Stress]
    have h4 : roundSqrt ([1, 0, 0, 1] : List ℝ).length = 2 := by
      have : Nat.sqrt 4 = 2 := (Nat.eq_sqrt.mpr (by norm_num)).symm
      simp [roundSqrt, this]
    rw [h4]
    norm_num
  · norm_num

/-- C8 (amended): `mapPK2toCauchy` fails exactly when the PK2 stress is not
of length 9 or the deformation gradient size differs (and succeeds on every
length-9 pair), while `pushForwardPK2Stress` fails exactly when the PK2 size
is not a perfect square or the deformation gradient size differs — a
length-9 requirement is enforced only by `mapPK2toCauchy`; neither function
checks invertibility of `F`. -/
theorem pk2PushForward_shape (S F : List ℝ) :
    ((∃ e, mapPK2toCauchy S F = .error e) ↔ S.length ≠ 9 ∨ F.length ≠ S.length) ∧
    ((∃ e, pushForwardPK2Stress S F = .error e) ↔
      (¬∃ d, d * d = S.length) ∨ S.length ≠ F.length) := by
  constructor
  · by_cases h1 : S.length = 9
    · by_cases h2 : F.length = S.length
      · simp [mapPK2toCauchy, h1, h2]
      · have h2' : ¬F.length = 9 := h1 ▸ h2
        simp [mapPK2toCauchy, h1, h2, h2']
    · simp [mapPK2toCauchy, h1]
  · rw [← roundSqrt_mul_self_iff]
    by_cases h1 : roundSqrt S.length * roundSqrt S.length = S.length
    · by_cases h2 : S.length = F.length
      · have h1' : roundSqrt F.length * roundSqrt F.length = F.length := h2 ▸ h1
        simp [pushForwardPK2Stress, h1, h2, h1']
      · simp [pushForwardPK2Stress, h1, h2]
    · simp [pushForwardPK2Stress, h1]

/-- Success equation of `decomposeGreenLagrangeStrain` in the shape of the
source code (`Ebar = E/J^(2/3)` plus the diagonal correction). -/
theorem decompose_ok (E : List ℝ) (h : E.length = 9)
    (hdet : 0 < ((2 : ℝ) • toMat E + 1).det) :
    decomposeGreenLagrangeStrain E =
      .ok (ofMat ((Real.sqrt (((2 : ℝ) • toMat E + 1).det) ^ ((2 : ℝ)/3))⁻¹ • toMat E +
        (0.5 * ((Real.sqrt (((2 : ℝ) • toMat E + 1).det) ^ ((2 : ℝ)/3))⁻¹ - 1)) • 1),
        Real.sqrt (((2 : ℝ) • toMat E + 1).det)) := by
  rw [decomposeGreenLagrangeStrain, if_neg (by rw [h]; exact not_not_intro rfl)]
  simp only [if_pos hdet]

/-- Error equation of `decomposeGreenLagrangeStrain` for a non-positive
determinant of `2E + I`. -/
theorem decompose_err (E : List ℝ) (h : E.length = 9)
    (hdet : ¬0 < ((2 : ℝ) • toMat E + 1).det) :
    decomposeGreenLagrangeStrain E =
      .error "the determinant of the Green-Lagrange strain is negative" := by
  rw [decomposeGreenLagrangeStrain, if_neg (by rw [h]; exact not_not_intro rfl)]
  simp only [if_neg hdet]

/-- C4: for a length-9 strain, `decomposeGreenLagrangeStrain` fails exactly
when `det(2E + I) ≤ 0`, and otherwise succeeds with `J = sqrt(det(2E+I))`
and `Ebar = E·J^(-2/3) + 0.5(J^(-2/3) - 1)·I` (the concrete failing input
`E = [-1,0,0,0,1,0,0,0,1]` of the claim is checked in the witness). -/
theorem decomposeGreenLagrangeStrain_spec (E : List ℝ) (h : E.length = 9) :
    ((∃ e, decomposeGreenLagrangeStrain E = .error e) ↔
      ((2 : ℝ) • toMat E + 1).det ≤ 0) ∧
    (0 < ((2 : ℝ) • toMat E + 1).det →
      decomposeGreenLagrangeStrain E =
        .ok (ofMat ((Real.sqrt (((2 : ℝ) • toMat E + 1).det) ^ (-((2 : ℝ)/3))) • toMat E +
          (0.5 * (Real.sqrt (((2 : ℝ) • toMat E + 1).det) ^ (-((2 : ℝ)/3)) - 1)) • 1),
          Real.sqrt (((2 : ℝ) • toMat E + 1).det))) := by
  constructor
  · constructor
    · rintro ⟨e, he⟩
      by_contra hdet
      rw [not_le] at hdet
      rw [decompose_ok E h hdet] at he
      exact absurd he (by simp)
    · intro hle
      exact ⟨_, decompose_err E h (not_lt.mpr hle)⟩
  · intro hdet
    rw [decompose_ok E h hdet, Real.rpow_neg (Real.sqrt_nonneg _)]

/-- Witness for C4 at the claim's concrete scenario
`E = [-1,0,0,0,1,0,0,0,1]`, for which `det(2E+I) = -9 ≤ 0` and the call must
fail with the `DomainError`. -/
theorem decomposeGreenLagrangeStrain_spec_witness :
    (([-1, 0, 0, 0, 1, 0, 0, 0, 1] : List ℝ).length = 9) ∧
    (((2 : ℝ) • toMat ([-1, 0, 0, 0, 1, 0, 0, 0, 1] : List ℝ) + 1).det ≤ 0) ∧
    (∃ e, decomposeGreenLagrangeStrain [-1, 0, 0, 0, 1, 0, 0, 0, 1] = .error e) := by
  have hdet : ((2 : ℝ) • toMat ([-1, 0, 0, 0, 1, 0, 0, 0, 1] : List ℝ) + 1).det ≤ 0 := by
    norm_num [Matrix.det_fin_three, Matrix.add_apply, Matrix.smul_apply,
      Matrix.one_apply, toMat, Matrix.of_apply, Fin.ext_iff]
  exact ⟨rfl, hdet,
    (decomposeGreenLagrangeStrain_spec [-1, 0, 0, 0, 1, 0, 0, 0, 1] rfl).1.mpr hdet⟩

/-- C5: for a length-9 strain with `det(2E+I) > 0`, feeding the isochoric
output `Ebar` of `decomposeGreenLagrangeStrain` back into
`decomposeGreenLagrangeStrain` succeeds and returns the volumetric part
`J = 1` exactly (in real arithmetic): the unimodular projection is
idempotent. -/
theorem decomposeGreenLagrangeStrain_idempotent (E : List ℝ) (h : E.length = 9)
    (hdet : 0 < ((2 : ℝ) • toMat E + 1).det) :
    ∃ Eb J, decomposeGreenLagrangeStrain E = .ok (Eb, J) ∧
      ∃ Eb2, decomposeGreenLagrangeStrain Eb = .ok (Eb2, 1) := by
  have hJpos : 0 < Real.sqrt (((2 : ℝ) • toMat E + 1).det) := Real.sqrt_pos.mpr hdet
  obtain ⟨c, hc⟩ : ∃ c : ℝ,
      (Real.sqrt (((2 : ℝ) • toMat E + 1).det) ^ ((2 : ℝ)/3))⁻¹ = c := ⟨_, rfl⟩
  have hEb := decompose_ok E h hdet
  rw [hc] at hEb
  refine ⟨ofMat (c • toMat E + (0.5 * (c - 1)) • 1),
    Real.sqrt (((2 : ℝ) • toMat E + 1).det), hEb, ?_⟩
  have htm : toMat (ofMat (c • toMat E + (0.5 * (c - 1)) • 1)) =
      c • toMat E + (0.5 * (c - 1)) • 1 := toMat_ofMat _
  have hfact : (2 : ℝ) • toMat (ofMat (c • toMat E + (0.5 * (c - 1)) • 1)) + 1 =
      c • ((2 : ℝ) • toMat E + 1) := by
    rw [htm]
    ext i j
    simp only [Matrix.add_apply, Matrix.smul_apply, Matrix.one_apply, smul_eq_mul]
    by_cases hij : i = j
    · simp only [hij, if_pos rfl]
      ring
    · simp only [if_neg hij]
      ring
  have hc3 : c ^ (3 : ℕ) = (((2 : ℝ) • toMat E + 1).det)⁻¹ := by
    rw [← hc, inv_pow,
      ← Real.rpow_natCast (Real.sqrt (((2 : ℝ) • toMat E + 1).det) ^ ((2 : ℝ)/3)) 3,
      ← Real.rpow_mul hJpos.le,
      show ((2 : ℝ)/3 * ((3 : ℕ) : ℝ)) = ((2 : ℕ) : ℝ) by push_cast; ring,
      Real.rpow_natCast, Real.sq_sqrt hdet.le]
  have hdetEb : ((2 : ℝ) • toMat (ofMat (c • toMat E + (0.5 * (c - 1)) • 1)) + 1).det
      = 1 := by
    rw [hfact, Matrix.det_smul, show Fintype.card (Fin 3) = 3 by simp, hc3,
      inv_mul_cancel₀ (ne_of_gt hdet)]
  have hEb2 := decompose_ok (ofMat (c • toMat E + (0.5 * (c - 1)) • 1))
    (ofMat_length _) (by rw [hdetEb]; exact one_pos)
  rw [hdetEb, Real.sqrt_one] at hEb2
  exact ⟨_, hEb2⟩

/-- Witness for C5 at `E = [0]*9` (zero strain): `det(2E+I) = 1 > 0`, the
decomposition succeeds, and re-decomposing its isochoric part returns
`J = 1`. -/
theorem decomposeGreenLagrangeStrain_idempotent_witness :
    (0 < ((2 : ℝ) • toMat ([0, 0, 0, 0, 0, 0, 0, 0, 0] : List ℝ) + 1).det) ∧
    (∃ Eb J, decomposeGreenLagrangeStrain [0, 0, 0, 0, 0, 0, 0, 0, 0] = .ok (Eb, J) ∧
      ∃ Eb2, decomposeGreenLagrangeStrain Eb = .ok (Eb2, 1)) := by
  have hdet : 0 < ((2 : ℝ) • toMat ([0, 0, 0, 0, 0, 0, 0, 0, 0] : List ℝ) + 1).det := by
    norm_num [Matrix.det_fin_three, Matrix.add_apply, Matrix.smul_apply,
      Matrix.one_apply, toMat, Matrix.of_apply, Fin.ext_iff]
  exact ⟨hdet,
    decomposeGreenLagrangeStrain_idempotent [0, 0, 0, 0, 0, 0, 0, 0, 0] rfl hdet⟩

/-- C1: for length-9 inputs, `mode ∈ {1,2}`, and invertible
`I - Dt(1-alpha)L`, `evolveF` succeeds; the returned `dF` equals `F - Fp`,
the mode-1 result satisfies the left-implicit generalized-midpoint equation
`[I - Dt(1-alpha)L]·F = Fp + Dt·alpha·Lp·Fp`, and the mode-2 result is
`F = (Fp + Dt·alpha·Fp·Lp)·[I - Dt(1-alpha)L]⁻¹`. -/
theorem evolveF_spec (Dt : ℚ) (Fp Lp L : List ℚ) (alpha : ℚ) (mode : ℕ)
    (hFp : Fp.length = 9) (hLp : Lp.length = 9) (hL : L.length = 9)
    (hmode : mode = 1 ∨ mode = 2)
    (hinv : (1 - (Dt * (1 - alpha)) • toMat L).det ≠ 0) :
    ∃ dF F, evolveF Dt Fp Lp L alpha mode = .ok (dF, F) ∧
      toMat dF = toMat F - toMat Fp ∧
      (mode = 1 →
        (1 - (Dt * (1 - alpha)) • toMat L) * toMat F =
          toMat Fp + (Dt * alpha) • (toMat Lp * toMat Fp)) ∧
      (mode = 2 →
        toMat F = (toMat Fp + (Dt * alpha) • (toMat Fp * toMat Lp)) *
          matInv (1 - (Dt * (1 - alpha)) • toMat L)) := by
  rcases hmode with rfl | rfl
  · have hrun : evolveF Dt Fp Lp L alpha 1 =
        .ok (ofMat (matInv (1 - (Dt * (1 - alpha)) • toMat L) *
            (Dt • ((alpha • toMat Lp + (1 - alpha) • toMat L) * toMat Fp))),
          ofMat (toMat Fp + matInv (1 - (Dt * (1 - alpha)) • toMat L) *
            (Dt • ((alpha • toMat Lp + (1 - alpha) • toMat L) * toMat Fp)))) := by
      rw [evolveF, if_neg (by rw [hFp]; exact not_not_intro rfl),
        if_neg (by rw [hLp, hFp]; exact not_not_intro rfl),
        if_neg (by rw [hFp, hL]; exact not_not_intro rfl),
        if_neg (not_not_intro (Or.inl rfl))]
      exact rfl
    refine ⟨_, _, hrun, ?_, fun _ => ?_, fun h => absurd h (by norm_num)⟩
    · rw [toMat_ofMat, toMat_ofMat, add_sub_cancel_left]
    · rw [toMat_ofMat, Matrix.mul_add, ← Matrix.mul_assoc,
        mul_matInv _ hinv, Matrix.one_mul, Matrix.sub_mul, Matrix.one_mul,
        Matrix.smul_mul, Matrix.add_mul, Matrix.smul_mul, Matrix.smul_mul,
        smul_add, smul_smul, smul_smul]
      abel
  · have hrun : evolveF Dt Fp Lp L alpha 2 =
        .ok (ofMat ((Dt • (toMat Fp * (alpha • toMat Lp + (1 - alpha) • toMat L))) *
            matInv (1 - (Dt * (1 - alpha)) • toMat L)),
          ofMat (toMat Fp +
            (Dt • (toMat Fp * (alpha • toMat Lp + (1 - alpha) • toMat L))) *
              matInv (1 - (Dt * (1 - alpha)) • toMat L))) := by
      rw [evolveF, if_neg (by rw [hFp]; exact not_not_intro rfl),
        if_neg (by rw [hLp, hFp]; exact not_not_intro rfl),
        if_neg (by rw [hFp, hL]; exact not_not_intro rfl),
        if_neg (not_not_intro (Or.inr rfl))]
      exact rfl
    refine ⟨_, _, hrun, ?_, fun h => absurd h (by norm_num), fun _ => ?_⟩
    · rw [toMat_ofMat, toMat_ofMat, add_sub_cancel_left]
    · rw [toMat_ofMat]
      have hX : toMat Fp * (1 - (Dt * (1 - alpha)) • toMat L) +
          Dt • (toMat Fp * (alpha • toMat Lp + (1 - alpha) • toMat L)) =
          toMat Fp + (Dt * alpha) • (toMat Fp * toMat Lp) := by
        rw [Matrix.mul_sub, Matrix.mul_one, Matrix.mul_smul, Matrix.mul_add,
          Matrix.mul_smul, Matrix.mul_smul, smul_add, smul_smul, smul_smul]
        abel
      rw [← hX, Matrix.add_mul, Matrix.mul_assoc,
        mul_matInv _ hinv, Matrix.mul_one]

/-- Witness for C1 at `Dt = 1`, `alpha = 1`, `Fp = I₃ₓ₃`, `Lp = L = 0`,
mode 1: the left-hand side matrix is the identity (determinant 1), the
update succeeds, and `F = Fp`, `dF = 0`. -/
theorem evolveF_spec_witness :
    ((1 - ((1 : ℚ) * (1 - 1)) • toMat ([0, 0, 0, 0, 0, 0, 0, 0, 0] : List ℚ)).det ≠ 0) ∧
    (∃ dF F, evolveF 1 [1, 0, 0, 0, 1, 0, 0, 0, 1] [0, 0, 0, 0, 0, 0, 0, 0, 0]
        [0, 0, 0, 0, 0, 0, 0, 0, 0] 1 1 = .ok (dF, F) ∧
      toMat dF = toMat F - toMat ([1, 0, 0, 0, 1, 0, 0, 0, 1] : List ℚ) ∧
      ((1 : ℕ) = 1 →
        (1 - ((1 : ℚ) * (1 - 1)) • toMat ([0, 0, 0, 0, 0, 0, 0, 0, 0] : List ℚ)) *
            toMat F =
          toMat ([1, 0, 0, 0, 1, 0, 0, 0, 1] : List ℚ) +
            ((1 : ℚ) * 1) • (toMat ([0, 0, 0, 0, 0, 0, 0, 0, 0] : List ℚ) *
              toMat ([1, 0, 0, 0, 1, 0, 0, 0, 1] : List ℚ))) ∧
      ((1 : ℕ) = 2 →
        toMat F = (toMat ([1, 0, 0, 0, 1, 0, 0, 0, 1] : List ℚ) +
            ((1 : ℚ) * 1) • (toMat ([1, 0, 0, 0, 1, 0, 0, 0, 1] : List ℚ) *
              toMat ([0, 0, 0, 0, 0, 0, 0, 0, 0] : List ℚ))) *
          matInv (1 - ((1 : ℚ) * (1 - 1)) •
            toMat ([0, 0, 0, 0, 0, 0, 0, 0, 0] : List ℚ)))) := by
  have hdet : ((1 : Matrix (Fin 3) (Fin 3) ℚ) -
      ((1 : ℚ) * (1 - 1)) • toMat ([0, 0, 0, 0, 0, 0, 0, 0, 0] : List ℚ)).det ≠ 0 := by
    norm_num [Matrix.det_one]
  exact ⟨hdet, evolveF_spec 1 [1, 0, 0, 0, 1, 0, 0, 0, 1]
    [0, 0, 0, 0, 0, 0, 0, 0, 0] [0, 0, 0, 0, 0, 0, 0, 0, 0] 1 1
    rfl rfl rfl (Or.inl rfl) hdet⟩

end TardigradeConstitutiveTools
